import Mathlib

/-!
# Verification of the k8m batch file-upload core

Shallow embedding of `pkg/controller/pod/pod_file.go` (the batch upload
pipeline: validation, staging, sanitizing, transfer, aggregation) together
with the filename sanitizer of `pkg/comm/utils`.

External collaborators (the remote writer `poder.UploadFile`, local disk
operations) are modelled by explicit environments describing their outcome,
and the filesystem side effects by an explicit state record, so that every
definition is executable.
-/

namespace K8m

/-! ## Sanitizer (`utils.SanitizeFileName`) -/

/-- Characters that the sanitizer maps to one underscore each: the path
separators `/` and `\` and the illegal set `: * ? " < > |`. -/
def underscoreChars : List Char := ['/', '\\', ':', '*', '?', '"', '<', '>', '|']

/-- Characters that the sanitizer removes outright: `(`, `)` and space. -/
def droppedChars : List Char := ['(', ')', ' ']

/-- Per-character action of the sanitizer. -/
def sanitizeCharL (c : Char) : List Char :=
  if c ∈ underscoreChars then ['_']
  else if c ∈ droppedChars then []
  else [c]

/-- Character-list level sanitizer: concatenation of the per-character images. -/
def sanitizeChars : List Char → List Char
  | [] => []
  | c :: cs => sanitizeCharL c ++ sanitizeChars cs

/-- Modelled from the spec: the implementation of `utils.SanitizeFileName` is
not under `src/` (only its unit test `utils_extra_test.go` and its callers in
`pod_file.go` are). Modelled from spec §4.2 ("replaces path separators and the
set `/ : * ? " < > |` ... with an underscore") constrained by the repository's
own test, which pins
`SanitizeFileName("a/b:c*?\"<>|() name.txt") == "a_b_c______name.txt"`:
the test output has six underscores for `*?"<>|` and none for `(`, `)` and
space, so those three characters are removed rather than replaced. -/
def SanitizeFileName (s : String) : String := String.mk (sanitizeChars s.data)

/-- The sanitizer exactly as claim C5 words it: every character of the
blacklist (separators, `/ : * ? " < > | ( )` and space) becomes exactly one
underscore, all other characters unchanged.  Used only to compare the claim's
wording against the behaviour pinned by the repository's test. -/
def sanitizeOneForOne (s : String) : String :=
  String.mk (s.data.map (fun c =>
    if c ∈ underscoreChars ∨ c ∈ droppedChars then '_' else c))

lemma sanitizeChars_append (a b : List Char) :
    sanitizeChars (a ++ b) = sanitizeChars a ++ sanitizeChars b := by
  induction a with
  | nil => rfl
  | cons c cs ih => simp [sanitizeChars, ih]

/-- Every character the sanitizer outputs is a fixed point of the sanitizer. -/
lemma sanitizeChars_sanitizeCharL (c : Char) :
    sanitizeChars (sanitizeCharL c) = sanitizeCharL c := by
  unfold sanitizeCharL
  by_cases h1 : c ∈ underscoreChars
  · simp [h1]; decide
  · by_cases h2 : c ∈ droppedChars
    · simp [h1, h2, sanitizeChars]
    · simp [h1, h2, sanitizeChars, sanitizeCharL]

lemma sanitizeChars_idem (l : List Char) :
    sanitizeChars (sanitizeChars l) = sanitizeChars l := by
  induction l with
  | nil => rfl
  | cons c cs ih =>
    show sanitizeChars (sanitizeCharL c ++ sanitizeChars cs) = _
    rw [sanitizeChars_append, ih, sanitizeChars_sanitizeCharL]
    rfl

lemma sanitizeCharL_no_illegal (c c' : Char) (h : c' ∈ sanitizeCharL c) :
    c' ∉ underscoreChars := by
  unfold sanitizeCharL at h
  by_cases h1 : c ∈ underscoreChars
  · simp [h1] at h; subst h; decide
  · by_cases h2 : c ∈ droppedChars
    · simp [h1, h2] at h
    · simp [h1, h2] at h; subst h; exact h1

lemma sanitizeChars_no_illegal (l : List Char) :
    ∀ c ∈ sanitizeChars l, c ∉ underscoreChars := by
  induction l with
  | nil => intro c h; cases h
  | cons c cs ih =>
    intro c' h'
    rcases List.mem_append.mp h' with h' | h'
    · exact sanitizeCharL_no_illegal c c' h'
    · exact ih c' h'

/-- C6: the sanitizer is idempotent: `sanitize (sanitize x) = sanitize x`
for every string `x`. -/
theorem sanitize_idempotent (s : String) :
    SanitizeFileName (SanitizeFileName s) = SanitizeFileName s := by
  show String.mk (sanitizeChars (sanitizeChars s.data)) = _
  rw [sanitizeChars_idem]
  rfl

/-- C5 counterexample: on the repository's own test input the sanitizer does
not replace every blacklisted character one-for-one with an underscore: the
one-for-one reading of the claim predicts nine underscores after `c`
(for `* ? " < > | ( )` and space), while the sanitizer pinned by the test
`utils_extra_test.go` produces six, removing `(`, `)` and space outright. -/
theorem sanitize_oneForOne_refuted :
    SanitizeFileName "a/b:c*?\"<>|() name.txt" = "a_b_c______name.txt"
    ∧ sanitizeOneForOne "a/b:c*?\"<>|() name.txt" = "a_b_c_________name.txt"
    ∧ SanitizeFileName "a/b:c*?\"<>|() name.txt"
      ≠ sanitizeOneForOne "a/b:c*?\"<>|() name.txt" :=
  ⟨by decide, by decide, by decide⟩

/-- C5 (amended): the sanitizer acts character by character
(`sanitize (s ++ t) = sanitize s ++ sanitize t`); it replaces each path
separator and each character of `/ : * ? " < > |` with exactly one
underscore, removes each of `(`, `)` and space, and leaves every other
character unchanged; consequently its output never contains any of
`/ \ : * ? " < > |`. -/
theorem sanitize_charwise (s t : String) (c : Char) :
    (∀ d ∈ (SanitizeFileName s).data, d ∉ underscoreChars)
    ∧ SanitizeFileName (s ++ t) = SanitizeFileName s ++ SanitizeFileName t
    ∧ (c ∈ underscoreChars → SanitizeFileName (String.singleton c) = "_")
    ∧ (c ∈ droppedChars → SanitizeFileName (String.singleton c) = "")
    ∧ (c ∉ underscoreChars → c ∉ droppedChars →
        SanitizeFileName (String.singleton c) = String.singleton c) := by
  refine ⟨fun d hd => sanitizeChars_no_illegal s.data d hd, ?_, ?_, ?_, ?_⟩
  · show String.mk (sanitizeChars (s.data ++ t.data)) = _
    rw [sanitizeChars_append]
    rfl
  · intro h
    show String.mk (sanitizeChars [c]) = "_"
    simp only [underscoreChars, List.mem_cons, List.not_mem_nil, or_false] at h
    rcases h with rfl | rfl | rfl | rfl | rfl | rfl | rfl | rfl | rfl <;> decide
  · intro h
    show String.mk (sanitizeChars [c]) = ""
    simp only [droppedChars, List.mem_cons, List.not_mem_nil, or_false] at h
    rcases h with rfl | rfl | rfl <;> decide
  · intro h1 h2
    show String.mk (sanitizeChars [c]) = String.singleton c
    simp [sanitizeChars, sanitizeCharL, h1, h2]
    rfl

/-- Witness for C5's amended theorem at concrete inputs. -/
theorem sanitize_charwise_witness :
    ((':' ∈ underscoreChars) ∧ SanitizeFileName (String.singleton ':') = "_")
    ∧ (('(' ∈ droppedChars) ∧ SanitizeFileName (String.singleton '(') = "")
    ∧ SanitizeFileName ("ab" ++ "c d") = SanitizeFileName "ab" ++ SanitizeFileName "c d" :=
  ⟨⟨by decide, (sanitize_charwise "ab" "c d" ':').2.2.1 (by decide)⟩,
   ⟨by decide, (sanitize_charwise "ab" "c d" '(').2.2.2.1 (by decide)⟩,
   (sanitize_charwise "ab" "c d" 'x').2.1⟩

/-! ## Data model (`pod_file.go`) -/

/-- The fields of `multipart.FileHeader` the pipeline reads. -/
structure FileHeader where
  filename : String
  size : Int
deriving Repr, DecidableEq

/-- The `info` struct of `pod_file.go` (fields used by the upload pipeline;
`Namespace` is rendered `namespaceName` because `namespace` is a Lean
keyword). -/
structure Info where
  containerName : String
  namespaceName : String
  podName : String
  path : String
  fileName : String
deriving Repr, DecidableEq

/-- `FileUploadResult` of `pod_file.go`. -/
structure FileUploadResult where
  fileName : String
  status : String
  error : String
  size : Int
deriving Repr, DecidableEq

/-- The Go zero value, as produced by `make([]FileUploadResult, n)`. -/
def FileUploadResult.zero : FileUploadResult := ⟨"", "", "", 0⟩

/-- `BatchUploadResult` of `pod_file.go` (the wall-clock fields `StartTime`,
`EndTime`, `Duration` are outside the model). -/
structure BatchUploadResult where
  totalFiles : Nat
  successCount : Nat
  failureCount : Nat
  files : List FileUploadResult
deriving Repr, DecidableEq

/-! ## Local filesystem state

`os.MkdirTemp("", "upload-*")` creates a fresh private directory (freshness
modelled by a monotone counter), `os.Create` adds a file path, `os.Remove`
deletes a single file path (never a directory's contents). -/

structure FS where
  counter : Nat
  dirs : List String
  fileEntries : List String
deriving Repr, DecidableEq

def FS.init : FS := ⟨0, [], []⟩

/-- The name `os.MkdirTemp("", "upload-*")` hands out for the `k`-th call.
Go fills `*` with a fresh random suffix; the model renders the call counter
`k` (here in unary, which keeps uniqueness provable) — only freshness and
uniqueness of the name matter. -/
def tempDirName (k : Nat) : String := "/tmp/upload-" ++ String.mk (List.replicate k '0')

def FS.mkdirTemp (fs : FS) : String × FS :=
  (tempDirName fs.counter,
   ⟨fs.counter + 1, tempDirName fs.counter :: fs.dirs, fs.fileEntries⟩)

def memStr : List String → String → Bool
  | [], _ => false
  | e :: rest, p => (e == p) || memStr rest p

def FS.hasFile (fs : FS) (p : String) : Bool := memStr fs.fileEntries p

def FS.createFile (fs : FS) (p : String) : FS :=
  ⟨fs.counter, fs.dirs, p :: fs.fileEntries⟩

def removeStr : List String → String → List String
  | [], _ => []
  | e :: rest, p => if e == p then removeStr rest p else e :: removeStr rest p

def FS.removeFile (fs : FS) (p : String) : FS :=
  ⟨fs.counter, fs.dirs, removeStr fs.fileEntries p⟩

/-- `filepath.Join` for the non-empty already-clean paths this pipeline
produces: joins with a single `/` (the path cleaning Go performs is the
identity on such inputs). -/
def joinPath (dir name : String) : String := dir ++ "/" ++ name

/-! ## Collaborator environments -/

deriving instance DecidableEq for Except

/-- Outcome of each fallible OS call inside `saveUploadedFile` — the error
string is the `%v` rendering of the underlying Go error. -/
structure StagingEnv where
  mkdirTempOutcome : Except String Unit
  createOutcome : Except String Unit
  openSrcOutcome : Except String Unit
  copyOutcome : Except String Unit
deriving Repr, DecidableEq

/-- Outcome environment for one item: staging plus the remote-writer
collaborator `poder.UploadFile` (spec §6: consumed, not implemented). -/
structure ItemEnv where
  staging : StagingEnv
  remote : Except String Unit
deriving Repr, DecidableEq

def StagingEnv.allOk : StagingEnv := ⟨.ok (), .ok (), .ok (), .ok ()⟩

def ItemEnv.allOk : ItemEnv := ⟨StagingEnv.allOk, .ok ()⟩

/-! ## Staging and the per-item pipeline -/

/-- `saveUploadedFile` (pod_file.go:567): creates a fresh private temporary
directory, then creates and fills `tempDir/<original filename>`; returns the
staged path.  As in the Go code, on a failure after `os.MkdirTemp` neither
the directory nor any partially written file is removed here. -/
def saveUploadedFile (env : StagingEnv) (file : FileHeader) (fs : FS) :
    Except String String × FS :=
  match env.mkdirTempOutcome with
  | .error e => (.error ("创建临时目录错误: " ++ e), fs)
  | .ok _ =>
    let p := fs.mkdirTemp
    let tempFilePath := joinPath p.1 file.filename
    match env.createOutcome with
    | .error e => (.error ("创建临时文件错误: " ++ e), p.2)
    | .ok _ =>
      let fs2 := p.2.createFile tempFilePath
      match env.openSrcOutcome with
      | .error e => (.error ("打开上传文件错误: " ++ e), fs2)
      | .ok _ =>
        match env.copyOutcome with
        | .error e => (.error ("无法写入临时文件: " ++ e), fs2)
        | .ok _ => (.ok tempFilePath, fs2)

/-- `uploadToPod` (pod_file.go:598): opens the staged file and hands it to
the remote writer, wrapping each failure.  The Boolean records whether the
remote writer (`poder.UploadFile`) was actually invoked. -/
def uploadToPod (remote : Except String Unit) (tempFilePath : String) (fs : FS) :
    Except String Unit × Bool :=
  if fs.hasFile tempFilePath then
    match remote with
    | .error e => (.error ("上传文件到Pod中错误: " ++ e), true)
    | .ok _ => (.ok (), true)
  else (.error "打开上传临时文件错误: 文件不存在", false)

/-- Execution record of one item: its `FileUploadResult`, the filesystem
after the item finished, whether the remote writer was invoked, and the
`singleFileInfo` handed to `uploadToPod` (when that call was reached). -/
structure ItemExec where
  result : FileUploadResult
  fs : FS
  remoteCalled : Bool
  dest : Option Info
deriving Repr, DecidableEq

/-- `uploadSingleFile` (pod_file.go:170): reject empty names, sanitize,
stage, build the destination from the sanitized name, transfer, and remove
the staged file (`defer os.Remove(tempFilePath)`) on every path past
staging. -/
def uploadSingleFile (env : ItemEnv) (i : Info) (file : FileHeader) (fs : FS) :
    ItemExec :=
  let base : FileUploadResult :=
    { fileName := file.filename, status := "", error := "", size := file.size }
  if file.filename = "" then
    ⟨{ base with status := "error", error := "文件名不能为空" }, fs, false, none⟩
  else
    let sanitizedFileName := SanitizeFileName file.filename
    match saveUploadedFile env.staging file fs with
    | (.error e, fs1) =>
      ⟨{ base with status := "error", error := "保存临时文件失败: " ++ e },
        fs1, false, none⟩
    | (.ok tempFilePath, fs1) =>
      let singleFileInfo : Info :=
        { containerName := i.containerName
          namespaceName := i.namespaceName
          podName := i.podName
          path := joinPath i.path sanitizedFileName
          fileName := sanitizedFileName }
      match uploadToPod env.remote tempFilePath fs1 with
      | (.error e, called) =>
        ⟨{ base with status := "error", error := "上传到Pod失败: " ++ e },
          fs1.removeFile tempFilePath, called, some singleFileInfo⟩
      | (.ok _, called) =>
        ⟨{ base with status := "done" },
          fs1.removeFile tempFilePath, called, some singleFileInfo⟩

/-! ## Aggregation (`processBatchUpload`) -/

/-- Aggregator state: the lock-protected `result` of `processBatchUpload`
(`Files` pre-sized with zero values, counters) plus the threaded filesystem. -/
structure AggState where
  files : List FileUploadResult
  successCount : Nat
  failureCount : Nat
  fs : FS
deriving Repr, DecidableEq

def aggInit (n : Nat) (fs0 : FS) : AggState :=
  ⟨List.replicate n FileUploadResult.zero, 0, 0, fs0⟩

/-- One worker's body (pod_file.go:138-156) for item `index`: run
`uploadSingleFile`, write the outcome into slot `index`, bump one counter —
the critical section under `mu`. -/
def aggStep (envs : Nat → ItemEnv) (i : Info) (files : List FileHeader)
    (s : AggState) (index : Nat) : AggState :=
  let f := files.getD index ⟨"", 0⟩
  let ex := uploadSingleFile (envs index) i f s.fs
  if ex.result.status = "done" then
    { files := s.files.set index ex.result
      successCount := s.successCount + 1
      failureCount := s.failureCount
      fs := ex.fs }
  else
    { files := s.files.set index ex.result
      successCount := s.successCount
      failureCount := s.failureCount + 1
      fs := ex.fs }

/-- The workers of `processBatchUpload` executed in completion order
`order` (each entry names the item whose critical section runs next); the
theorems quantify over `order`, capturing the unspecified scheduling. -/
def runAgg (envs : Nat → ItemEnv) (i : Info) (files : List FileHeader)
    (order : List Nat) (fs0 : FS) : AggState :=
  order.foldl (aggStep envs i files) (aggInit files.length fs0)

/-- `processBatchUpload` (pod_file.go:123): pre-sizes the result, runs one
worker per item, `wg.Wait`s, and returns the frozen aggregate (wall-clock
fields outside the model). -/
def processBatchUpload (envs : Nat → ItemEnv) (i : Info) (files : List FileHeader)
    (order : List Nat) (fs0 : FS) : BatchUploadResult :=
  let s := runAgg envs i files order fs0
  { totalFiles := files.length
    successCount := s.successCount
    failureCount := s.failureCount
    files := s.files }

/-- The maximum batch size (`maxFiles` in `BatchUpload`). -/
def maxFiles : Nat := 50

/-- `BatchUpload` (pod_file.go:78) after cluster selection and multipart
parsing succeeded (the routing/auth/parsing layer is outside the core per
spec §1): validates the coordinates, destination path and batch size, then
runs `processBatchUpload`. -/
def BatchUpload (i : Info) (files : List FileHeader) (envs : Nat → ItemEnv)
    (order : List Nat) (fs0 : FS) : Except String BatchUploadResult :=
  if i.containerName = "" ∨ i.namespaceName = "" ∨ i.podName = "" ∨ i.path = "" then
    .error "缺少必要参数: containerName, namespace, podName, path"
  else if files.length = 0 then
    .error "没有找到上传的文件"
  else if files.length > maxFiles then
    .error ("批量上传文件数量不能超过 " ++ toString maxFiles ++ " 个")
  else
    .ok (processBatchUpload envs i files order fs0)

/-! ## Order-independence of per-item outcomes

The only filesystem read in the item pipeline is `os.Open` of the file the
same item just staged, so an item's `FileUploadResult` (and whether the
remote writer was invoked, and the destination it was given) does not depend
on the filesystem state the worker happened to start from. -/

lemma hasFile_createFile (fs : FS) (p : String) :
    (fs.createFile p).hasFile p = true := by
  simp [FS.createFile, FS.hasFile, memStr]

lemma uploadSingleFile_fs_indep (env : ItemEnv) (i : Info) (file : FileHeader)
    (fs fs' : FS) :
    (uploadSingleFile env i file fs).result = (uploadSingleFile env i file fs').result
    ∧ (uploadSingleFile env i file fs).remoteCalled
      = (uploadSingleFile env i file fs').remoteCalled
    ∧ (uploadSingleFile env i file fs).dest = (uploadSingleFile env i file fs').dest := by
  obtain ⟨⟨m, cr, o, cp⟩, r⟩ := env
  by_cases hf : file.filename = "" <;>
    cases m <;> cases cr <;> cases o <;> cases cp <;> cases r <;>
      simp [uploadSingleFile, saveUploadedFile, uploadToPod, hf, hasFile_createFile]

/-- The outcome of item `j` of a batch, as a function of the environment and
the input item alone. -/
def itemOutcome (envs : Nat → ItemEnv) (i : Info) (files : List FileHeader)
    (j : Nat) : FileUploadResult :=
  (uploadSingleFile (envs j) i (files.getD j ⟨"", 0⟩) FS.init).result

/-- Bool form of "item `j` reports `done`". -/
def itemDone (envs : Nat → ItemEnv) (i : Info) (files : List FileHeader)
    (j : Nat) : Bool :=
  (itemOutcome envs i files j).status == "done"

/-! ## Aggregator fold lemmas -/

lemma aggStep_files_length (envs : Nat → ItemEnv) (i : Info)
    (files : List FileHeader) (s : AggState) (j : Nat) :
    ((aggStep envs i files s j).files).length = s.files.length := by
  simp only [aggStep]
  split <;> simp

lemma aggStep_result (envs : Nat → ItemEnv) (i : Info) (files : List FileHeader)
    (s : AggState) (j : Nat) :
    (uploadSingleFile (envs j) i (files.getD j ⟨"", 0⟩) s.fs).result
      = itemOutcome envs i files j :=
  (uploadSingleFile_fs_indep (envs j) i _ s.fs FS.init).1

/-- The result list's length is never changed by any worker's critical
section: it stays at its pre-sized value whatever (even partial) completion
order has run. -/
lemma foldl_agg_length (envs : Nat → ItemEnv) (i : Info) (files : List FileHeader)
    (order : List Nat) : ∀ s : AggState,
    ((order.foldl (aggStep envs i files) s).files).length = s.files.length := by
  induction order with
  | nil => intro s; rfl
  | cons j rest ih =>
    intro s
    rw [List.foldl_cons, ih, aggStep_files_length]

/-- The critical section of worker `j`, rewritten through the
order-independence of item outcomes. -/
lemma aggStep_eq (envs : Nat → ItemEnv) (i : Info) (files : List FileHeader)
    (s : AggState) (j : Nat) :
    aggStep envs i files s j =
      if (itemOutcome envs i files j).status = "done" then
        { files := s.files.set j (itemOutcome envs i files j)
          successCount := s.successCount + 1
          failureCount := s.failureCount
          fs := (uploadSingleFile (envs j) i (files.getD j ⟨"", 0⟩) s.fs).fs }
      else
        { files := s.files.set j (itemOutcome envs i files j)
          successCount := s.successCount
          failureCount := s.failureCount + 1
          fs := (uploadSingleFile (envs j) i (files.getD j ⟨"", 0⟩) s.fs).fs } := by
  simp only [aggStep]
  rw [aggStep_result]

lemma aggStep_files (envs : Nat → ItemEnv) (i : Info) (files : List FileHeader)
    (s : AggState) (j : Nat) :
    (aggStep envs i files s j).files = s.files.set j (itemOutcome envs i files j) := by
  rw [aggStep_eq]; split <;> rfl

lemma aggStep_counters (envs : Nat → ItemEnv) (i : Info) (files : List FileHeader)
    (s : AggState) (j : Nat) :
    (aggStep envs i files s j).successCount + (aggStep envs i files s j).failureCount
      = s.successCount + s.failureCount + 1 := by
  rw [aggStep_eq]; split <;> simp <;> omega

lemma aggStep_success (envs : Nat → ItemEnv) (i : Info) (files : List FileHeader)
    (s : AggState) (j : Nat) :
    (aggStep envs i files s j).successCount
      = s.successCount + (if itemDone envs i files j then 1 else 0) := by
  rw [aggStep_eq]
  by_cases h : (itemOutcome envs i files j).status = "done"
  · have hb : itemDone envs i files j = true := by simp [itemDone, h]
    rw [if_pos h, hb]
    simp
  · have hb : itemDone envs i files j = false := by simp [itemDone, h]
    rw [if_neg h, hb]
    simp

/-- Each critical section bumps exactly one of the two counters. -/
lemma foldl_agg_counters (envs : Nat → ItemEnv) (i : Info) (files : List FileHeader)
    (order : List Nat) : ∀ s : AggState,
    (order.foldl (aggStep envs i files) s).successCount
      + (order.foldl (aggStep envs i files) s).failureCount
      = s.successCount + s.failureCount + order.length := by
  induction order with
  | nil => intro s; simp
  | cons j rest ih =>
    intro s
    rw [List.foldl_cons, ih, aggStep_counters]
    simp
    omega

/-- The success counter counts exactly the processed items whose outcome is
`done`. -/
lemma foldl_agg_success (envs : Nat → ItemEnv) (i : Info) (files : List FileHeader)
    (order : List Nat) : ∀ s : AggState,
    (order.foldl (aggStep envs i files) s).successCount
      = s.successCount + order.countP (itemDone envs i files) := by
  induction order with
  | nil => intro s; simp
  | cons j rest ih =>
    intro s
    rw [List.foldl_cons, ih, aggStep_success, List.countP_cons]
    by_cases hb : itemDone envs i files j
    · rw [hb]; simp; omega
    · simp only [hb]; simp

/-- Slot `index` of the result list holds item `index`'s outcome once worker
`index` has reported, and its pre-sized zero value before that — whatever
the completion order. -/
lemma foldl_agg_slot (envs : Nat → ItemEnv) (i : Info) (files : List FileHeader)
    (order : List Nat) (index : Nat) : ∀ s : AggState,
    index < s.files.length →
    ((order.foldl (aggStep envs i files) s).files).get? index
      = if index ∈ order then some (itemOutcome envs i files index)
        else s.files.get? index := by
  induction order with
  | nil => intro s _; simp
  | cons j rest ih =>
    intro s hlen
    rw [List.foldl_cons]
    have hlen' : index < ((aggStep envs i files s j).files).length := by
      rw [aggStep_files_length]; exact hlen
    rw [ih _ hlen']
    by_cases hmem : index ∈ rest
    · rw [if_pos hmem, if_pos (List.mem_cons_of_mem j hmem)]
    · rw [if_neg hmem]
      by_cases hj : index = j
      · subst hj
        rw [aggStep_files, List.get?_set_eq_of_lt _ hlen,
          if_pos (List.mem_cons_self index rest)]
      · have hj' : j ≠ index := fun h => hj h.symm
        rw [aggStep_files, List.get?_set_ne _ _ hj',
          if_neg (by simp [List.mem_cons, hj, hmem])]

/-! ## Claim theorems on the batch pipeline -/

/-- A sample target used by the witnesses. -/
def sampleInfo : Info := ⟨"nginx", "default", "pod-1", "/tmp", ""⟩

/-- C1: the result's `Files` list always has length `TotalFiles` (it is
pre-sized before dispatch and no worker changes it); once the batch
completes — i.e. after every worker's critical section ran, in any order —
`SuccessCount + FailureCount = TotalFiles`, and slot `i` of `Files` holds
the `ItemResult` of input item `i`, independent of completion order. -/
theorem batch_result_invariants (envs : Nat → ItemEnv) (i : Info)
    (files : List FileHeader) (order : List Nat) (fs0 : FS)
    (hperm : order.Perm (List.range files.length)) :
    (∀ partialOrder : List Nat,
        (runAgg envs i files partialOrder fs0).files.length = files.length)
    ∧ (processBatchUpload envs i files order fs0).files.length
        = (processBatchUpload envs i files order fs0).totalFiles
    ∧ (processBatchUpload envs i files order fs0).successCount
        + (processBatchUpload envs i files order fs0).failureCount
        = (processBatchUpload envs i files order fs0).totalFiles
    ∧ (∀ index, index < files.length →
        ((processBatchUpload envs i files order fs0).files).get? index
          = some (itemOutcome envs i files index)) := by
  have hlen : ∀ partialOrder : List Nat,
      (runAgg envs i files partialOrder fs0).files.length = files.length := by
    intro partialOrder
    rw [runAgg, foldl_agg_length]
    simp [aggInit]
  refine ⟨hlen, ?_, ?_, ?_⟩
  · show (runAgg envs i files order fs0).files.length = files.length
    exact hlen order
  · show (runAgg envs i files order fs0).successCount
        + (runAgg envs i files order fs0).failureCount = files.length
    rw [runAgg, foldl_agg_counters]
    have : order.length = files.length := by
      rw [hperm.length_eq, List.length_range]
    simp [aggInit, this]
  · intro index hindex
    show (runAgg envs i files order fs0).files.get? index = _
    rw [runAgg, foldl_agg_slot envs i files order index _ (by simp [aggInit]; exact hindex)]
    rw [if_pos (hperm.mem_iff.mpr (List.mem_range.mpr hindex))]

/-- Witness for C1 on a concrete two-item batch completing out of order. -/
theorem batch_result_invariants_witness :
    ([1, 0].Perm (List.range 2)
      ∧ (processBatchUpload (fun _ => ItemEnv.allOk) sampleInfo
          [⟨"a.txt", 1⟩, ⟨"b.txt", 2⟩] [1, 0] FS.init).successCount
        + (processBatchUpload (fun _ => ItemEnv.allOk) sampleInfo
            [⟨"a.txt", 1⟩, ⟨"b.txt", 2⟩] [1, 0] FS.init).failureCount
        = (processBatchUpload (fun _ => ItemEnv.allOk) sampleInfo
            [⟨"a.txt", 1⟩, ⟨"b.txt", 2⟩] [1, 0] FS.init).totalFiles) :=
  ⟨by decide,
   (batch_result_invariants (fun _ => ItemEnv.allOk) sampleInfo
      [⟨"a.txt", 1⟩, ⟨"b.txt", 2⟩] [1, 0] FS.init (by decide)).2.2.1⟩

/-- C2: `BatchUpload` returns a request-level error exactly when the batch
is malformed — a required coordinate or the destination path is absent, the
item list is empty, or it has more than `maxFiles = 50` items; every
well-formed batch gets `Except.ok` carrying the `BatchUploadResult`,
whatever the per-item outcomes. -/
theorem batchUpload_request_error_iff (i : Info) (files : List FileHeader)
    (envs : Nat → ItemEnv) (order : List Nat) (fs0 : FS) :
    ((∃ e, BatchUpload i files envs order fs0 = Except.error e)
      ↔ (i.containerName = "" ∨ i.namespaceName = "" ∨ i.podName = "" ∨ i.path = ""
          ∨ files.length = 0 ∨ maxFiles < files.length))
    ∧ ((i.containerName ≠ "" ∧ i.namespaceName ≠ "" ∧ i.podName ≠ "" ∧ i.path ≠ ""
          ∧ 1 ≤ files.length ∧ files.length ≤ maxFiles) →
        BatchUpload i files envs order fs0
          = Except.ok (processBatchUpload envs i files order fs0)) := by
  unfold BatchUpload
  split_ifs with h1 h2 h3
  · exact ⟨⟨fun _ => by tauto, fun _ => ⟨_, rfl⟩⟩, fun hw => by tauto⟩
  · refine ⟨⟨fun _ => by tauto, fun _ => ⟨_, rfl⟩⟩, fun hw => ?_⟩
    obtain ⟨-, -, -, -, hn1, -⟩ := hw
    omega
  · refine ⟨⟨fun _ => by tauto, fun _ => ⟨_, rfl⟩⟩, fun hw => ?_⟩
    obtain ⟨-, -, -, -, -, hn2⟩ := hw
    omega
  · refine ⟨⟨?_, ?_⟩, fun _ => rfl⟩
    · rintro ⟨e, he⟩
      cases he
    · intro h
      rcases h with h | h | h | h | h | h <;> tauto

/-- Witness for C2: a well-formed one-item batch is accepted. -/
theorem batchUpload_request_error_iff_witness :
    ((sampleInfo.containerName ≠ "" ∧ sampleInfo.namespaceName ≠ ""
        ∧ sampleInfo.podName ≠ "" ∧ sampleInfo.path ≠ ""
        ∧ 1 ≤ ([(⟨"a.txt", 1⟩ : FileHeader)]).length
        ∧ ([(⟨"a.txt", 1⟩ : FileHeader)]).length ≤ maxFiles)
      ∧ BatchUpload sampleInfo [⟨"a.txt", 1⟩] (fun _ => ItemEnv.allOk) [0] FS.init
        = Except.ok (processBatchUpload (fun _ => ItemEnv.allOk) sampleInfo
            [⟨"a.txt", 1⟩] [0] FS.init)) :=
  ⟨by decide,
   (batchUpload_request_error_iff sampleInfo [⟨"a.txt", 1⟩]
      (fun _ => ItemEnv.allOk) [0] FS.init).2 (by decide)⟩

/-! ### Per-item outcome evaluations -/

/-- A fully successful item with a non-empty name reports `done` with no
error text and the client-declared size. -/
lemma itemOutcome_allOk (i : Info) (f : FileHeader) (hf : f.filename ≠ "") (fs : FS) :
    (uploadSingleFile ItemEnv.allOk i f fs).result
      = ⟨f.filename, "done", "", f.size⟩ := by
  simp [uploadSingleFile, saveUploadedFile, uploadToPod, hf, ItemEnv.allOk,
    StagingEnv.allOk, hasFile_createFile]

/-- An item whose remote write fails with message `m` reports `error`, the
collaborator's message appearing verbatim after the two Go wrappers. -/
lemma itemOutcome_remoteErr (i : Info) (f : FileHeader) (m : String)
    (hf : f.filename ≠ "") (fs : FS) :
    (uploadSingleFile ⟨StagingEnv.allOk, Except.error m⟩ i f fs).result
      = ⟨f.filename, "error", "上传到Pod失败: " ++ ("上传文件到Pod中错误: " ++ m), f.size⟩ := by
  simp [uploadSingleFile, saveUploadedFile, uploadToPod, hf,
    StagingEnv.allOk, hasFile_createFile]

/-- Counting: a predicate holding everywhere on `range n` except at `j`
counts to `n - 1`. -/
lemma countP_range_except (p : Nat → Bool) (n j : Nat) (hj : j < n)
    (hpj : p j = false) (hp : ∀ k, k < n → k ≠ j → p k = true) :
    (List.range n).countP p = n - 1 := by
  have hneg : (List.range n).countP (fun k => !p k) = 1 := by
    induction n with
    | zero => omega
    | succ n ih =>
      rw [List.range_succ, List.countP_append]
      by_cases hjn : j = n
      · subst hjn
        have h0 : (List.range j).countP (fun k => !p k) = 0 := by
          rw [List.countP_eq_zero]
          intro a ha
          have := hp a (by exact Nat.lt_succ_of_lt (List.mem_range.mp ha))
            (Nat.ne_of_lt (List.mem_range.mp ha))
          simp [this]
        simp [h0, hpj]
      · have h1 : (List.range n).countP (fun k => !p k) = 1 :=
          ih (by omega) (fun k hk hkj => hp k (by omega) hkj)
        have hn : p n = true := hp n (by omega) (fun h => hjn h.symm)
        simp [h1, hn]
  have htot := List.length_eq_countP_add_countP p (l := List.range n)
  rw [List.length_range] at htot
  have hcong : (List.range n).countP (fun a => decide ¬(p a = true))
      = (List.range n).countP (fun k => !p k) := by
    apply List.countP_congr
    intro a _
    cases h : p a <;> simp [h]
  rw [hcong] at htot
  omega

/-- C3: in a well-formed batch where the remote writer fails for exactly one
item `j` (message `m`) and succeeds for every other item, item `j`'s result
is `error` carrying the collaborator's message verbatim inside the Go
wrappers, every other item is `done`, and the counters add up:
`SuccessCount = N - 1`, `FailureCount = 1`. -/
theorem single_remote_failure_isolated (i : Info) (files : List FileHeader)
    (envs : Nat → ItemEnv) (order : List Nat) (fs0 : FS) (j : Nat) (m : String)
    (hperm : order.Perm (List.range files.length))
    (hj : j < files.length)
    (henvj : envs j = ⟨StagingEnv.allOk, Except.error m⟩)
    (hother : ∀ k, k < files.length → k ≠ j → envs k = ItemEnv.allOk)
    (hnames : ∀ k, k < files.length → (files.getD k ⟨"", 0⟩).filename ≠ "") :
    ((processBatchUpload envs i files order fs0).files.getD j FileUploadResult.zero).status
        = "error"
    ∧ ((processBatchUpload envs i files order fs0).files.getD j FileUploadResult.zero).error
        = "上传到Pod失败: " ++ ("上传文件到Pod中错误: " ++ m)
    ∧ (∀ k, k < files.length → k ≠ j →
        ((processBatchUpload envs i files order fs0).files.getD k FileUploadResult.zero).status
          = "done")
    ∧ (processBatchUpload envs i files order fs0).successCount = files.length - 1
    ∧ (processBatchUpload envs i files order fs0).failureCount = 1
    ∧ (processBatchUpload envs i files order fs0).successCount
        + (processBatchUpload envs i files order fs0).failureCount = files.length := by
  have hslot : ∀ k, k < files.length →
      (processBatchUpload envs i files order fs0).files.getD k FileUploadResult.zero
        = itemOutcome envs i files k := by
    intro k hk
    have := foldl_agg_slot envs i files order k (aggInit files.length fs0)
      (by simp [aggInit]; exact hk)
    rw [if_pos (hperm.mem_iff.mpr (List.mem_range.mpr hk))] at this
    show ((runAgg envs i files order fs0).files).getD k FileUploadResult.zero = _
    rw [List.getD_eq_getElem?_getD, ← List.get?_eq_getElem?]
    rw [runAgg] at *
    rw [this]
    rfl
  have houtJ : itemOutcome envs i files j
      = ⟨(files.getD j ⟨"", 0⟩).filename, "error",
          "上传到Pod失败: " ++ ("上传文件到Pod中错误: " ++ m), (files.getD j ⟨"", 0⟩).size⟩ := by
    rw [itemOutcome, henvj]
    exact itemOutcome_remoteErr i _ m (hnames j hj) FS.init
  have houtK : ∀ k, k < files.length → k ≠ j →
      itemOutcome envs i files k
        = ⟨(files.getD k ⟨"", 0⟩).filename, "done", "", (files.getD k ⟨"", 0⟩).size⟩ := by
    intro k hk hkj
    rw [itemOutcome, hother k hk hkj]
    exact itemOutcome_allOk i _ (hnames k hk) FS.init
  have hdone : ∀ k, k < files.length → k ≠ j → itemDone envs i files k = true := by
    intro k hk hkj
    simp [itemDone, houtK k hk hkj]
  have hnotdone : itemDone envs i files j = false := by
    simp [itemDone, houtJ]
  have hsucc : (processBatchUpload envs i files order fs0).successCount
      = files.length - 1 := by
    show (runAgg envs i files order fs0).successCount = _
    rw [runAgg, foldl_agg_success]
    rw [hperm.countP_eq (itemDone envs i files)]
    rw [countP_range_except _ _ j hj hnotdone hdone]
    simp [aggInit]
  have hsum : (processBatchUpload envs i files order fs0).successCount
      + (processBatchUpload envs i files order fs0).failureCount = files.length := by
    show (runAgg envs i files order fs0).successCount
      + (runAgg envs i files order fs0).failureCount = _
    rw [runAgg, foldl_agg_counters]
    have : order.length = files.length := by rw [hperm.length_eq, List.length_range]
    simp [aggInit, this]
  refine ⟨?_, ?_, ?_, hsucc, ?_, hsum⟩
  · rw [hslot j hj, houtJ]
  · rw [hslot j hj, houtJ]
  · intro k hk hkj
    rw [hslot k hk, houtK k hk hkj]
  · omega

/-- Witness for C3: three items, the middle one's remote write fails. -/
theorem single_remote_failure_isolated_witness :
    ((processBatchUpload
        (fun k => if k = 1 then ⟨StagingEnv.allOk, Except.error "boom"⟩ else ItemEnv.allOk)
        sampleInfo [⟨"a.txt", 1⟩, ⟨"b.txt", 2⟩, ⟨"c.txt", 3⟩] [2, 0, 1] FS.init).successCount
      = 2
    ∧ (processBatchUpload
        (fun k => if k = 1 then ⟨StagingEnv.allOk, Except.error "boom"⟩ else ItemEnv.allOk)
        sampleInfo [⟨"a.txt", 1⟩, ⟨"b.txt", 2⟩, ⟨"c.txt", 3⟩] [2, 0, 1] FS.init).failureCount
      = 1) :=
  ⟨(single_remote_failure_isolated sampleInfo
      [⟨"a.txt", 1⟩, ⟨"b.txt", 2⟩, ⟨"c.txt", 3⟩]
      (fun k => if k = 1 then ⟨StagingEnv.allOk, Except.error "boom"⟩ else ItemEnv.allOk)
      [2, 0, 1] FS.init 1 "boom" (by decide) (by decide) (by decide)
      (by decide) (by decide)).2.2.2.1,
   (single_remote_failure_isolated sampleInfo
      [⟨"a.txt", 1⟩, ⟨"b.txt", 2⟩, ⟨"c.txt", 3⟩]
      (fun k => if k = 1 then ⟨StagingEnv.allOk, Except.error "boom"⟩ else ItemEnv.allOk)
      [2, 0, 1] FS.init 1 "boom" (by decide) (by decide) (by decide)
      (by decide) (by decide)).2.2.2.2.1⟩

/-! ## Staging isolation and temporary-resource lifecycle -/

lemma replicate_sep_inj (a b : Nat) (l1 l2 : List Char)
    (h : List.replicate a '0' ++ '/' :: l1 = List.replicate b '0' ++ '/' :: l2) :
    a = b ∧ l1 = l2 := by
  induction a generalizing b with
  | zero =>
    cases b with
    | zero => simpa using h
    | succ b => simp [List.replicate_succ] at h
  | succ a ih =>
    cases b with
    | zero => simp [List.replicate_succ] at h
    | succ b =>
      rw [List.replicate_succ, List.replicate_succ] at h
      simp only [List.cons_append, List.cons.injEq] at h
      obtain ⟨hab, h2⟩ := ih b h.2
      exact ⟨by omega, h2⟩

/-- Staged paths living in temporary directories of different generations
are distinct strings, whatever the file names. -/
lemma joinPath_tempDir_ne (c d : Nat) (hcd : c ≠ d) (n1 n2 : String) :
    joinPath (tempDirName c) n1 ≠ joinPath (tempDirName d) n2 := by
  intro h
  have hd : (joinPath (tempDirName c) n1).data = (joinPath (tempDirName d) n2).data := by
    rw [h]
  simp only [joinPath, tempDirName, String.data_append, List.append_assoc] at hd
  have hd' := List.append_cancel_left hd
  simp only [List.singleton_append] at hd'
  obtain ⟨hab, -⟩ := replicate_sep_inj _ _ _ _ hd'
  omega

/-- C7: a successful staging persists the item under its original
(unsanitized) name inside the fresh private directory created for it, and
two stagings in one batch never share a location, even for identical
names — both staged files coexist untouched. -/
theorem staging_isolated (env1 env2 : StagingEnv) (f1 f2 : FileHeader) (fs : FS)
    (p1 p2 : String)
    (h1 : (saveUploadedFile env1 f1 fs).1 = Except.ok p1)
    (h2 : (saveUploadedFile env2 f2 (saveUploadedFile env1 f1 fs).2).1 = Except.ok p2) :
    p1 = joinPath (tempDirName fs.counter) f1.filename
    ∧ p2 = joinPath (tempDirName (fs.counter + 1)) f2.filename
    ∧ ((saveUploadedFile env2 f2 (saveUploadedFile env1 f1 fs).2).2).hasFile p1 = true
    ∧ ((saveUploadedFile env2 f2 (saveUploadedFile env1 f1 fs).2).2).hasFile p2 = true
    ∧ p1 ≠ p2 := by
  obtain ⟨m1, c1, o1, cp1⟩ := env1
  obtain ⟨m2, c2, o2, cp2⟩ := env2
  cases m1 <;> cases c1 <;> cases o1 <;> cases cp1 <;>
    simp [saveUploadedFile, FS.mkdirTemp, FS.createFile] at h1 h2 <;>
    cases m2 <;> cases c2 <;> cases o2 <;> cases cp2 <;>
      simp [saveUploadedFile, FS.mkdirTemp, FS.createFile] at h2
  subst h1
  subst h2
  refine ⟨rfl, rfl, ?_, ?_, ?_⟩
  · simp [saveUploadedFile, FS.mkdirTemp, FS.createFile, FS.hasFile, memStr]
  · simp [saveUploadedFile, FS.mkdirTemp, FS.createFile, FS.hasFile, memStr]
  · exact joinPath_tempDir_ne fs.counter (fs.counter + 1) (by omega) _ _

/-- Witness for C7: two items with the same name `a.txt` staged one after
the other land in distinct private directories. -/
theorem staging_isolated_witness :
    ((saveUploadedFile StagingEnv.allOk ⟨"a.txt", 1⟩ FS.init).1
        = Except.ok "/tmp/upload-/a.txt")
    ∧ ((saveUploadedFile StagingEnv.allOk ⟨"a.txt", 2⟩
          (saveUploadedFile StagingEnv.allOk ⟨"a.txt", 1⟩ FS.init).2).1
        = Except.ok "/tmp/upload-0/a.txt")
    ∧ ("/tmp/upload-/a.txt" : String) ≠ "/tmp/upload-0/a.txt" :=
  ⟨by decide, by decide,
   (staging_isolated StagingEnv.allOk StagingEnv.allOk ⟨"a.txt", 1⟩ ⟨"a.txt", 2⟩
      FS.init "/tmp/upload-/a.txt" "/tmp/upload-0/a.txt"
      (by decide) (by decide)).2.2.2.2⟩

/-- C4 (code bug): after a fully successful item the staged temporary file
is removed (`defer os.Remove(tempFilePath)`) but the private directory
created by `os.MkdirTemp` is never deleted on any path; after a staging
failure during the byte copy even the partially written temporary file
remains on disk. -/
theorem temp_directory_leak :
    ((uploadSingleFile ItemEnv.allOk sampleInfo ⟨"a.txt", 5⟩ FS.init).result.status = "done"
      ∧ (uploadSingleFile ItemEnv.allOk sampleInfo ⟨"a.txt", 5⟩ FS.init).fs.fileEntries = []
      ∧ (uploadSingleFile ItemEnv.allOk sampleInfo ⟨"a.txt", 5⟩ FS.init).fs.dirs
          = ["/tmp/upload-"])
    ∧ ((uploadSingleFile
          ⟨⟨Except.ok (), Except.ok (), Except.ok (), Except.error "write error"⟩, Except.ok ()⟩
          sampleInfo ⟨"a.txt", 5⟩ FS.init).result.status = "error"
      ∧ (uploadSingleFile
          ⟨⟨Except.ok (), Except.ok (), Except.ok (), Except.error "write error"⟩, Except.ok ()⟩
          sampleInfo ⟨"a.txt", 5⟩ FS.init).fs.fileEntries = ["/tmp/upload-/a.txt"]
      ∧ (uploadSingleFile
          ⟨⟨Except.ok (), Except.ok (), Except.ok (), Except.error "write error"⟩, Except.ok ()⟩
          sampleInfo ⟨"a.txt", 5⟩ FS.init).fs.dirs = ["/tmp/upload-"]) := by
  decide

/-- C9: the reported `file_name` and `size` are always the client's
originals; the sanitized name appears only in the destination handed to the
remote writer — the batch destination directory joined with the sanitized
name. -/
theorem reported_name_is_original (env : ItemEnv) (i : Info) (f : FileHeader) (fs : FS) :
    (uploadSingleFile env i f fs).result.fileName = f.filename
    ∧ (uploadSingleFile env i f fs).result.size = f.size
    ∧ (∀ d, (uploadSingleFile env i f fs).dest = some d →
        d.path = joinPath i.path (SanitizeFileName f.filename)
        ∧ d.fileName = SanitizeFileName f.filename) := by
  obtain ⟨⟨m, cr, o, cp⟩, r⟩ := env
  by_cases hf : f.filename = "" <;>
    cases m <;> cases cr <;> cases o <;> cases cp <;> cases r <;>
      simp [uploadSingleFile, saveUploadedFile, uploadToPod, hf, hasFile_createFile]

/-- Witness for C9: a name needing sanitization is reported verbatim while
the destination uses the sanitized form. -/
theorem reported_name_is_original_witness :
    ((uploadSingleFile ItemEnv.allOk sampleInfo ⟨"b:c.txt", 7⟩ FS.init).dest
        = some ⟨"nginx", "default", "pod-1", "/tmp/b_c.txt", "b_c.txt"⟩)
    ∧ (uploadSingleFile ItemEnv.allOk sampleInfo ⟨"b:c.txt", 7⟩ FS.init).result.fileName
        = "b:c.txt"
    ∧ ((⟨"nginx", "default", "pod-1", "/tmp/b_c.txt", "b_c.txt"⟩ : Info).path
        = joinPath sampleInfo.path (SanitizeFileName "b:c.txt")) :=
  ⟨by decide,
   (reported_name_is_original ItemEnv.allOk sampleInfo ⟨"b:c.txt", 7⟩ FS.init).1,
   ((reported_name_is_original ItemEnv.allOk sampleInfo ⟨"b:c.txt", 7⟩ FS.init).2.2
      ⟨"nginx", "default", "pod-1", "/tmp/b_c.txt", "b_c.txt"⟩ (by decide)).1⟩

/-- C10: an item with an empty client-supplied name short-circuits: its
result is `error` with a non-empty message, no staging happens (the
filesystem is untouched), the remote writer is never invoked — and every
sibling item of the batch still gets its normal outcome. -/
theorem empty_name_short_circuit (env : ItemEnv) (i : Info) (f : FileHeader) (fs : FS)
    (hf : f.filename = "") :
    (uploadSingleFile env i f fs).result.status = "error"
    ∧ (uploadSingleFile env i f fs).result.error = "文件名不能为空"
    ∧ (uploadSingleFile env i f fs).fs = fs
    ∧ (uploadSingleFile env i f fs).remoteCalled = false
    ∧ (uploadSingleFile env i f fs).dest = none
    ∧ (∀ (envs : Nat → ItemEnv) (files : List FileHeader) (order : List Nat) (j : Nat),
        order.Perm (List.range files.length) →
        files.getD j ⟨"", 0⟩ = f →
        ∀ k, k < files.length → k ≠ j →
          ((processBatchUpload envs i files order fs).files).get? k
            = some (itemOutcome envs i files k)) := by
  refine ⟨?_, ?_, ?_, ?_, ?_, ?_⟩
  · simp [uploadSingleFile, hf]
  · simp [uploadSingleFile, hf]
  · simp [uploadSingleFile, hf]
  · simp [uploadSingleFile, hf]
  · simp [uploadSingleFile, hf]
  · intro envs files order j hperm hj k hk hkj
    show ((runAgg envs i files order fs).files).get? k = _
    rw [runAgg, foldl_agg_slot envs i files order k _ (by simp [aggInit]; exact hk)]
    rw [if_pos (hperm.mem_iff.mpr (List.mem_range.mpr hk))]

/-- Witness for C10: a two-item batch whose first item has an empty name. -/
theorem empty_name_short_circuit_witness :
    (((⟨"", 3⟩ : FileHeader)).filename = ""
      ∧ (uploadSingleFile ItemEnv.allOk sampleInfo ⟨"", 3⟩ FS.init).result.status = "error"
      ∧ (uploadSingleFile ItemEnv.allOk sampleInfo ⟨"", 3⟩ FS.init).remoteCalled = false
      ∧ (uploadSingleFile ItemEnv.allOk sampleInfo ⟨"", 3⟩ FS.init).fs = FS.init) :=
  ⟨rfl,
   (empty_name_short_circuit ItemEnv.allOk sampleInfo ⟨"", 3⟩ FS.init rfl).1,
   (empty_name_short_circuit ItemEnv.allOk sampleInfo ⟨"", 3⟩ FS.init rfl).2.2.2.1,
   (empty_name_short_circuit ItemEnv.allOk sampleInfo ⟨"", 3⟩ FS.init rfl).2.2.1⟩

/-! ## Concurrency skeleton of `processBatchUpload`

`processBatchUpload` dispatches one goroutine per item, admits at most five
of them into the transfer step through a buffered-channel semaphore
(`semaphore := make(chan ..., 5)`, pod_file.go:132), and reads the
aggregate only after `wg.Wait()` (pod_file.go:159).  The skeleton is a
small-step system over the workers' phases. -/

/-- Lifecycle phase of one dispatched worker: waiting at the admission
gate, holding a semaphore slot during its pipeline, or finished (reported
to the aggregator and released its slot). -/
inductive Phase where
  | pending
  | inTransfer
  | finished
deriving Repr, DecidableEq

/-- The admission-gate capacity: the buffer size `5` of the semaphore
channel in pod_file.go:132. -/
def semaphoreCapacity : Nat := 5

/-- Number of workers currently holding a semaphore slot. -/
def inTransferCount (ps : List Phase) : Nat := ps.countP (· == Phase.inTransfer)

/-- Scheduler state of one batch call: every dispatched worker's phase,
plus whether the final response has been produced. -/
structure PoolState where
  phases : List Phase
  returned : Bool
deriving Repr, DecidableEq

/-- Interleaving semantics of the dispatch skeleton: a pending worker is
admitted only while fewer than five slots are held (`semaphore <- ...`); a
worker holding a slot may finish (report, `defer` release); the response is
produced only once every dispatched worker has finished (`wg.Wait()`). -/
inductive PoolStep : PoolState → PoolState → Prop where
  | acquire (s : PoolState) (k : Nat)
      (hk : s.phases.get? k = some Phase.pending)
      (hcap : inTransferCount s.phases < semaphoreCapacity) :
      PoolStep s ⟨s.phases.set k Phase.inTransfer, s.returned⟩
  | release (s : PoolState) (k : Nat)
      (hk : s.phases.get? k = some Phase.inTransfer) :
      PoolStep s ⟨s.phases.set k Phase.finished, s.returned⟩
  | respond (s : PoolState)
      (hall : ∀ p ∈ s.phases, p = Phase.finished)
      (hr : s.returned = false) :
      PoolStep s ⟨s.phases, true⟩

/-- States reachable by a batch of `n` dispatched workers. -/
inductive PoolReachable (n : Nat) : PoolState → Prop where
  | init : PoolReachable n ⟨List.replicate n Phase.pending, false⟩
  | step {s s' : PoolState} :
      PoolReachable n s → PoolStep s s' → PoolReachable n s'

lemma countP_set_phase (p : Phase → Bool) (l : List Phase) (k : Nat) (a b : Phase)
    (hk : l.get? k = some b) :
    (l.set k a).countP p + (if p b then 1 else 0)
      = l.countP p + (if p a then 1 else 0) := by
  induction l generalizing k with
  | nil => simp at hk
  | cons x xs ih =>
    cases k with
    | zero =>
      simp only [List.get?] at hk
      injection hk with hk
      subst hk
      simp only [List.set, List.countP_cons]
      by_cases hpa : p a <;> by_cases hpb : p x <;> simp [hpa, hpb]
    | succ k =>
      simp only [List.get?] at hk
      simp only [List.set, List.countP_cons]
      have := ih k hk
      by_cases hpx : p x <;> simp [hpx] <;> omega

/-- C8: in every reachable state of a batch of `n` dispatched workers, at
most `semaphoreCapacity = 5` workers are inside the transfer step; the set
of tracked workers never changes size; and the batch result is produced
only in states where every dispatched worker has finished — the join
barrier. -/
theorem transfer_bound_and_barrier (n : Nat) (s : PoolState)
    (hreach : PoolReachable n s) :
    inTransferCount s.phases ≤ semaphoreCapacity
    ∧ s.phases.length = n
    ∧ (s.returned = true → ∀ p ∈ s.phases, p = Phase.finished) := by
  induction hreach with
  | init =>
    refine ⟨?_, by simp, by simp⟩
    simp [inTransferCount, List.countP_replicate]
  | @step s s' hr hstep ih =>
    obtain ⟨ihcap, ihlen, ihret⟩ := ih
    cases hstep with
    | acquire k hk hcap =>
      have hcount := countP_set_phase (· == Phase.inTransfer) s.phases k
        Phase.inTransfer Phase.pending hk
      refine ⟨?_, by simpa using ihlen, ?_⟩
      · show inTransferCount (s.phases.set k Phase.inTransfer) ≤ _
        rw [inTransferCount] at *
        simp only [show ((Phase.pending == Phase.inTransfer) = false) by decide,
          show ((Phase.inTransfer == Phase.inTransfer) = true) by decide] at hcount
        simp at hcount
        omega
      · intro hret
        have := ihret hret (Phase.pending) (List.get?_mem hk)
        cases this
    | release k hk =>
      have hcount := countP_set_phase (· == Phase.inTransfer) s.phases k
        Phase.finished Phase.inTransfer hk
      refine ⟨?_, by simpa using ihlen, ?_⟩
      · show inTransferCount (s.phases.set k Phase.finished) ≤ _
        rw [inTransferCount] at *
        simp only [show ((Phase.inTransfer == Phase.inTransfer) = true) by decide,
          show ((Phase.finished == Phase.inTransfer) = false) by decide] at hcount
        simp at hcount
        omega
      · intro hret
        intro p hp
        rcases List.mem_or_eq_of_mem_set hp with hp' | hp'
        · exact ihret hret p hp'
        · exact hp'
    | respond hall hret =>
      exact ⟨ihcap, ihlen, fun _ => hall⟩

/-- Witness for C8: after admitting the first worker of a three-item batch,
the bound and the barrier statement hold in that reachable state. -/
theorem transfer_bound_and_barrier_witness :
    inTransferCount ((List.replicate 3 Phase.pending).set 0 Phase.inTransfer)
        ≤ semaphoreCapacity
    ∧ ((List.replicate 3 Phase.pending).set 0 Phase.inTransfer).length = 3 :=
  ⟨(transfer_bound_and_barrier 3
      ⟨(List.replicate 3 Phase.pending).set 0 Phase.inTransfer, false⟩
      (PoolReachable.step PoolReachable.init
        (PoolStep.acquire ⟨List.replicate 3 Phase.pending, false⟩ 0
          (by decide) (by decide)))).1,
   (transfer_bound_and_barrier 3
      ⟨(List.replicate 3 Phase.pending).set 0 Phase.inTransfer, false⟩
      (PoolReachable.step PoolReachable.init
        (PoolStep.acquire ⟨List.replicate 3 Phase.pending, false⟩ 0
          (by decide) (by decide)))).2.1⟩

end K8m
